import Mathlib

/-
Verification of the purchase-order receiving workflow of the
Inventory Management System (Flask web routes + PyQt desktop GUI
over a shared SQLAlchemy schema).

The embedding models the two concrete implementations of each
workflow operation:

* the desktop path: `PurchaseOrderDialog.accept` (create / edit),
  `ReceiveOrderDialog.load_items` + `ReceiveOrderDialog.accept` and the
  `PurchaseTab.receive_order` guard (src/gui/purchase_tab.py);
* the web path: `new_purchase_order` and `receive_order`
  (src/routes.py).

Quantities are Python ints, modelled as `Int`; prices are modelled as
`Rat` (the claims under study are about the summation structure, not
about floating point rounding).  Each operation is a pure function
from the pre-state (the order row, its item rows and the product rows)
to an outcome marker plus the post-state, exactly following the
mutations the source performs before `session.commit()`.
-/

namespace Inventory

/-- Order status column of `purchase_orders` (`models.py`): one of
`pending`, `delivered`, `cancelled`. -/
inductive Status where
  | pending
  | delivered
  | cancelled
deriving DecidableEq

/-- One `purchase_items` row (`models.py`): product reference, ordered
quantity, price snapshot and cumulative received quantity. -/
structure Item where
  product_id : Nat
  quantity : Int
  unit_price : Rat
  received_quantity : Int
deriving DecidableEq

/-- The part of a `products` row the receiving workflow touches. -/
structure Product where
  id : Nat
  quantity_in_stock : Int
deriving DecidableEq

/-- Pre/post state of a receiving or editing operation: the order row
fields it reads or writes, its item rows (in table order) and the
product rows. -/
structure OrderState where
  status : Status
  total_amount : Rat
  items : List Item
  products : List Product
deriving DecidableEq

/-- Observable outcome of a receive request:
`applied` = mutations committed;
`invalidState` = desktop "Only pending orders can be received" warning
(`PurchaseTab.receive_order`), nothing touched;
`noOp` = desktop "No Items Received" warning
(`ReceiveOrderDialog.accept`), nothing touched;
`alreadyDelivered` = web "This order has already been received" flash
(`routes.receive_order`), nothing touched. -/
inductive RecvOutcome where
  | applied
  | invalidState
  | noOp
  | alreadyDelivered
deriving DecidableEq

/-- A purchase-order record as built by the creation paths. -/
structure NewOrder where
  order_number : String
  status : Status
  total_amount : Rat
  items : List Item
deriving DecidableEq

/-- Stock of the product row with primary key `pid` (first match, as
`session.query(Product).get` returns the row by primary key); `none`
when no such row exists. -/
def stockOf : List Product → Nat → Option Int
  | [], _ => none
  | p :: rest, pid =>
      if p.id = pid then some p.quantity_in_stock else stockOf rest pid

/-- Effect of `product.quantity_in_stock += d` on the product table for
the product with primary key `pid`; a missing `pid` changes nothing
(the GUI guards with `if product:`). -/
def addStock : List Product → Nat → Int → List Product
  | [], _, _ => []
  | p :: rest, pid, d =>
      (if p.id = pid
        then { p with quantity_in_stock := p.quantity_in_stock + d }
        else p) :: addStock rest pid d

/-- Value actually held by the Receive Now spinbox of
`ReceiveOrderDialog.load_items` for item `it` when `v` is requested:
Qt clamps the value into `[minimum, maximum]` =
`[0, item.quantity - item.received_quantity]`. -/
def spinVal (it : Item) (v : Int) : Int :=
  max 0 (min v (it.quantity - it.received_quantity))

/-- Desktop stock updates of `ReceiveOrderDialog.accept`: for each item
with a positive receive-now value, add it to the stock of the item
product. -/
def guiApplyReceipts : List Product → List (Item × Int) → List Product
  | prods, [] => prods
  | prods, (it, v) :: rest =>
      guiApplyReceipts
        (if 0 < v then addStock prods it.product_id v else prods) rest

/-- Web stock updates of `routes.receive_order`: for every item the
form value is added to the stock of the item product, with no guard. -/
def webApplyReceipts : List Product → List (Item × Int) → List Product
  | prods, [] => prods
  | prods, (it, v) :: rest =>
      webApplyReceipts (addStock prods it.product_id v) rest

/-- The item rows of the order paired with the values the Receive Now
spinboxes hold after the requests `req` were typed into them (one
spinbox per row, each clamped by `spinVal`). -/
def effPairs (s : OrderState) (req : List Int) : List (Item × Int) :=
  (s.items.zip req).map fun pr => (pr.1, spinVal pr.1 pr.2)

/-- Desktop item updates of `ReceiveOrderDialog.accept`: each item with
a positive receive-now value gets `received_quantity += receive_now`;
the others are untouched. -/
def applyItems (eff : List (Item × Int)) : List Item :=
  eff.map fun pr =>
    if 0 < pr.2
      then { pr.1 with received_quantity := pr.1.received_quantity + pr.2 }
      else pr.1

/-- Body of `ReceiveOrderDialog.accept` (src/gui/purchase_tab.py
489-532): read the spinbox values, reject when none is positive,
otherwise add each positive value to the item received quantity and to
the product stock, then mark the order delivered when every item is now
fully received and the order was pending. -/
def receiveDialogAccept (s : OrderState) (req : List Int) :
    RecvOutcome × OrderState :=
  let eff := effPairs s req
  if eff.any fun pr => decide (0 < pr.2) then
    let newItems := applyItems eff
    let newProds := guiApplyReceipts s.products eff
    let allReceived :=
      newItems.all fun it => decide (it.quantity ≤ it.received_quantity)
    let newStatus :=
      if allReceived = true ∧ s.status = Status.pending
        then Status.delivered else s.status
    (RecvOutcome.applied,
      { s with status := newStatus, items := newItems, products := newProds })
  else (RecvOutcome.noOp, s)

/-- The full desktop receiving operation: the guard of
`PurchaseTab.receive_order` (src/gui/purchase_tab.py 796-805) rejects
any non-pending order before the dialog opens; otherwise the dialog
body runs. -/
def guiReceiveOrder (s : OrderState) (req : List Int) :
    RecvOutcome × OrderState :=
  if s.status = Status.pending then receiveDialogAccept s req
  else (RecvOutcome.invalidState, s)

/-- The web receiving operation `routes.receive_order`
(src/routes.py 253-283), POST branch: reject only orders already
`delivered`; otherwise set the status to `delivered` unconditionally,
overwrite each item received quantity with the raw form value and add
that value to the product stock. -/
def webReceiveOrder (s : OrderState) (form : List Int) :
    RecvOutcome × OrderState :=
  if s.status = Status.delivered then (RecvOutcome.alreadyDelivered, s)
  else
    let pairs := s.items.zip form
    (RecvOutcome.applied,
      { s with
          status := Status.delivered,
          items := pairs.map fun pr =>
            { pr.1 with received_quantity := pr.2 },
          products := webApplyReceipts s.products pairs })

/-- Running total of `quantity * unit_price` over the draft items, as
accumulated by both creation paths (`total_amount += ...`). -/
def itemsTotal (items : List Item) : Rat :=
  items.foldl (fun acc it => acc + (it.quantity : Rat) * it.unit_price) 0

/-- A `PurchaseItem(...)` constructed by a save path: only
`product_id`, `quantity` and `unit_price` are passed, so
`received_quantity` takes its column default 0. -/
def freshItem (d : Item) : Item :=
  { product_id := d.product_id, quantity := d.quantity,
    unit_price := d.unit_price, received_quantity := 0 }

/-- Python `"%03d" % n` as used for the desktop order-number suffix. -/
def pad3 (n : Nat) : String :=
  if n < 10 then "00" ++ toString n
  else if n < 100 then "0" ++ toString n
  else toString n

/-- SQL `LIKE "<pre>%"` on a pattern with no wildcard characters, as
used by the order-number count query: true when `s` starts with
`pre`. -/
def likePre (pre s : String) : Bool :=
  pre.data.isPrefixOf s.data

/-- Desktop order-number generation (`PurchaseOrderDialog.setup_ui`,
src/gui/purchase_tab.py 48-65): count the existing order numbers that
start with `PO-<today>-` and append `count + 1` zero-padded to three
digits. -/
def guiOrderNumber (existing : List String) (today : String) : String :=
  let pre := "PO-" ++ today ++ "-"
  let count := (existing.filter fun s => likePre pre s).length
  pre ++ pad3 (count + 1)

/-- Modelled from the words of the spec (section 4.4): format
`PO-YYYYMMDD-NNN` where `NNN` is a per-day sequence starting at 001,
computed by counting the existing orders whose number starts with the
today date marker and adding one. -/
def specOrderNumber (existing : List String) (today : String) : String :=
  "PO-" ++ today ++ "-" ++
    pad3 ((existing.countP fun s => likePre ("PO-" ++ today ++ "-") s) + 1)

/-- Web order-number generation (`routes.new_purchase_order`, line
207): the suffix is the current time `HHMMSS`, not a sequence. -/
def webOrderNumber (today hhmmss : String) : String :=
  "PO-" ++ today ++ "-" ++ hhmmss

/-- A POST body reaching `routes.new_purchase_order` is either
form-encoded or JSON; Flask populates `request.form` only from the
former and `request.json` only from the latter, never both from one
request. -/
inductive WebBody where
  | formBody (supplier_id : Nat) (expected_delivery notes : String)
  | jsonBody (items : List Item)
deriving DecidableEq

/-- Persisted outcome of a web creation POST
(`routes.new_purchase_order`, src/routes.py 203-243).  A JSON body
raises `BadRequestKeyError` at `request.form` indexing (line 212)
before any insert; a form body builds and flushes the order row but
raises at `request.json` (line 223) before `commit`, an exception the
`except SQLAlchemyError` clause does not catch, so the flushed row is
rolled back on session teardown.  Either way no record is
persisted. -/
def webCreationPost : WebBody → Option NewOrder
  | WebBody.formBody _ _ _ => none
  | WebBody.jsonBody _ => none

/-- Data flow of the success path of `routes.new_purchase_order`
(src/routes.py 203-240) given form fields and a JSON items list
together: the order row (status `pending`), one item row per entry of
the items list and the accumulated total.  No real request supplies
both inputs at once, so the commit of this record is unreachable in
the program (see `webCreationPost`); the definition describes what the
code would assemble. -/
def webNewOrder (today hhmmss : String) (draft : List Item) : NewOrder :=
  { order_number := webOrderNumber today hhmmss,
    status := Status.pending,
    total_amount := itemsTotal draft,
    items := draft.map freshItem }

/-- Desktop order creation (`PurchaseOrderDialog.accept`, create
branch, src/gui/purchase_tab.py 245-298): an empty item list is
rejected before any database work; otherwise the order row is created
with the chosen status, the fresh item rows and the accumulated
total. -/
def guiOrderCreate (onum : String) (st : Status) (draft : List Item) :
    Option NewOrder :=
  if draft.isEmpty then none
  else some
    { order_number := onum, status := st,
      total_amount := itemsTotal draft, items := draft.map freshItem }

/-- Desktop order edit (`PurchaseOrderDialog.accept`, edit branch,
src/gui/purchase_tab.py 271-297): an empty item list is rejected;
otherwise every existing item row of the order is deleted and replaced
by fresh rows built from the dialog draft, the stored total is
recomputed from the draft, and the product table is not touched. -/
def guiOrderEdit (s : OrderState) (st : Status) (draft : List Item) :
    Option OrderState :=
  if draft.isEmpty then none
  else some
    { s with status := st, total_amount := itemsTotal draft,
             items := draft.map freshItem }

/-- Invariant claimed by the spec for item rows:
`0 <= received_quantity <= quantity`. -/
def invItems (items : List Item) : Prop :=
  ∀ it ∈ items, 0 ≤ it.received_quantity ∧ it.received_quantity ≤ it.quantity

/-- A request list as the Receive Now spinboxes can actually emit it:
each value is within the widget bounds
`[0, quantity - received_quantity]` of its row. -/
def validReq (s : OrderState) (req : List Int) : Prop :=
  ∀ pr ∈ s.items.zip req,
    0 ≤ pr.2 ∧ pr.2 ≤ pr.1.quantity - pr.1.received_quantity

/-- Sum of the receive-now values aimed at product `pid`. -/
def recvSum (pairs : List (Item × Int)) (pid : Nat) : Int :=
  (pairs.map fun pr => if pr.1.product_id = pid then pr.2 else 0).sum

/-- Sum of the positive receive-now values aimed at product `pid`
(the desktop path only applies positive values). -/
def recvSumPos (pairs : List (Item × Int)) (pid : Nat) : Int :=
  (pairs.map fun pr =>
    if pr.1.product_id = pid ∧ 0 < pr.2 then pr.2 else 0).sum

/-- A pending order with one item (ordered 10, received 3 so far) for
product 1, which has 5 units in stock. -/
def cexPartial : OrderState :=
  { status := Status.pending, total_amount := 20,
    items := [{ product_id := 1, quantity := 10, unit_price := 2,
                received_quantity := 3 }],
    products := [{ id := 1, quantity_in_stock := 5 }] }

/-- A pending order with one untouched item (ordered 10, received 0)
for product 1, which has 5 units in stock. -/
def cexFresh : OrderState :=
  { status := Status.pending, total_amount := 20,
    items := [{ product_id := 1, quantity := 10, unit_price := 2,
                received_quantity := 0 }],
    products := [{ id := 1, quantity_in_stock := 5 }] }

/-- A cancelled order with one untouched item. -/
def cexCancelled : OrderState :=
  { status := Status.cancelled, total_amount := 20,
    items := [{ product_id := 1, quantity := 10, unit_price := 2,
                received_quantity := 0 }],
    products := [{ id := 1, quantity_in_stock := 5 }] }

/-- A one-row dialog draft; its stale `received_quantity` 6 stands for
receipt progress loaded from a previously received order. -/
def draftX : List Item :=
  [{ product_id := 2, quantity := 7, unit_price := 4, received_quantity := 6 }]

/-- The state the edit dialog produces on `cexPartial` with `draftX`. -/
def editedX : OrderState :=
  { status := Status.pending, total_amount := itemsTotal draftX,
    items := draftX.map freshItem, products := cexPartial.products }

/-- `addStock` changes exactly the stock visible under the touched
primary key. -/
theorem stockOf_addStock (prods : List Product) (q : Nat) (d : Int) (pid : Nat) :
    stockOf (addStock prods q d) pid =
      if pid = q then (stockOf prods pid).map (fun v => v + d)
      else stockOf prods pid := by
  induction prods with
  | nil => simp [stockOf, addStock]
  | cons p rest ih =>
    by_cases hpq : p.id = q <;> by_cases hpp : p.id = pid <;>
      by_cases hq : pid = q <;> simp_all [stockOf, addStock]

theorem recvSumPos_cons (pr : Item × Int) (rest : List (Item × Int)) (pid : Nat) :
    recvSumPos (pr :: rest) pid =
      (if pr.1.product_id = pid ∧ 0 < pr.2 then pr.2 else 0) +
        recvSumPos rest pid := by
  simp [recvSumPos]

/-- The desktop stock pass adds, per product, exactly the sum of the
positive receive-now values of the items pointing at it. -/
theorem stockOf_guiApply (pairs : List (Item × Int)) (prods : List Product)
    (pid : Nat) :
    stockOf (guiApplyReceipts prods pairs) pid =
      (stockOf prods pid).map (fun v => v + recvSumPos pairs pid) := by
  induction pairs generalizing prods with
  | nil =>
    cases h : stockOf prods pid <;> simp [guiApplyReceipts, recvSumPos, h]
  | cons pr rest ih =>
    rw [guiApplyReceipts, recvSumPos_cons]
    by_cases hv : 0 < pr.2
    · rw [if_pos hv, ih, stockOf_addStock]
      by_cases hp : pr.1.product_id = pid
      · rw [if_pos hp.symm]
        cases h : stockOf prods pid
        · simp [h, hp, hv]
        · simp [h, hp, hv]; ring
      · rw [if_neg (fun hc => hp hc.symm)]
        cases h : stockOf prods pid <;> simp [h, hp, hv]
    · rw [if_neg hv, ih]
      cases h : stockOf prods pid <;> simp [h, hv]

theorem recvSum_cons (pr : Item × Int) (rest : List (Item × Int)) (pid : Nat) :
    recvSum (pr :: rest) pid =
      (if pr.1.product_id = pid then pr.2 else 0) + recvSum rest pid := by
  simp [recvSum]

/-- The web stock pass adds, per product, the sum of all form values of
the items pointing at it. -/
theorem stockOf_webApply (pairs : List (Item × Int)) (prods : List Product)
    (pid : Nat) :
    stockOf (webApplyReceipts prods pairs) pid =
      (stockOf prods pid).map (fun v => v + recvSum pairs pid) := by
  induction pairs generalizing prods with
  | nil =>
    cases h : stockOf prods pid <;> simp [webApplyReceipts, recvSum, h]
  | cons pr rest ih =>
    rw [webApplyReceipts, recvSum_cons, ih, stockOf_addStock]
    by_cases hp : pr.1.product_id = pid
    · rw [if_pos hp.symm]
      cases h : stockOf prods pid
      · simp [h, hp]
      · simp [h, hp]; ring
    · rw [if_neg (fun hc => hp hc.symm)]
      cases h : stockOf prods pid <;> simp [h, hp]

/-- A request inside the widget bounds passes through the spinbox
unchanged. -/
theorem spinVal_of_valid (it : Item) (v : Int)
    (h0 : 0 ≤ v) (h1 : v ≤ it.quantity - it.received_quantity) :
    spinVal it v = v := by
  unfold spinVal; omega

theorem spinVal_nonneg (it : Item) (v : Int) : 0 ≤ spinVal it v := by
  unfold spinVal; omega

theorem spinVal_le (it : Item) (v : Int)
    (h : it.received_quantity ≤ it.quantity) :
    spinVal it v ≤ it.quantity - it.received_quantity := by
  unfold spinVal; omega

/-- The running total both creation paths accumulate is the sum of
`quantity * unit_price` over the items. -/
theorem itemsTotal_eq_sum (items : List Item) :
    itemsTotal items =
      (items.map fun it => (it.quantity : Rat) * it.unit_price).sum := by
  suffices h : ∀ a : Rat, items.foldl
      (fun acc it => acc + (it.quantity : Rat) * it.unit_price) a =
      a + (items.map fun it => (it.quantity : Rat) * it.unit_price).sum by
    simpa [itemsTotal] using h 0
  induction items with
  | nil => intro a; simp
  | cons it rest ih => intro a; simp [ih]; ring

theorem spinVal_eq_zero (it : Item) (v : Int) (h : v ≤ 0) : spinVal it v = 0 := by
  unfold spinVal; omega

/-- When every request is inside the widget bounds, the spinboxes hold
exactly the requested values. -/
theorem effPairs_of_valid (s : OrderState) (req : List Int)
    (hv : validReq s req) :
    effPairs s req = s.items.zip req := by
  unfold effPairs
  have h : ∀ pr ∈ s.items.zip req, (pr.1, spinVal pr.1 pr.2) = id pr := by
    intro pr hpr
    obtain ⟨h0, h1⟩ := hv pr hpr
    simp [spinVal_of_valid pr.1 pr.2 h0 h1]
  rw [List.map_congr_left h, List.map_id]

/-- On in-bounds requests, every item gets exactly its requested value
added (the ones with request 0 are unchanged, which is the same). -/
theorem applyItems_of_valid (s : OrderState) (req : List Int)
    (hv : validReq s req) :
    applyItems (s.items.zip req) =
      (s.items.zip req).map (fun pr =>
        { pr.1 with received_quantity := pr.1.received_quantity + pr.2 }) := by
  unfold applyItems
  apply List.map_congr_left
  intro pr hpr
  obtain ⟨h0, _⟩ := hv pr hpr
  by_cases hp : 0 < pr.2
  · simp [hp]
  · have hz : pr.2 = 0 := le_antisymm (not_lt.mp hp) h0
    simp [hp, hz]

theorem any_pos_of_valid (s : OrderState) (req : List Int)
    (hv : validReq s req) (hpos : ∃ pr ∈ s.items.zip req, 0 < pr.2) :
    ((effPairs s req).any fun pr => decide (0 < pr.2)) = true := by
  rw [effPairs_of_valid s req hv]
  rcases hpos with ⟨pr, hmem, hp⟩
  exact List.any_eq_true.mpr ⟨pr, hmem, by simpa using hp⟩

theorem recvSumPos_eq_of_valid (s : OrderState) (req : List Int)
    (hv : validReq s req) (pid : Nat) :
    recvSumPos (s.items.zip req) pid = recvSum (s.items.zip req) pid := by
  unfold recvSumPos recvSum
  congr 1
  apply List.map_congr_left
  intro pr hpr
  obtain ⟨h0, _⟩ := hv pr hpr
  by_cases hp : pr.1.product_id = pid
  · by_cases hp2 : 0 < pr.2
    · simp [hp, hp2]
    · have hz : pr.2 = 0 := le_antisymm (not_lt.mp hp2) h0
      simp [hp, hp2, hz]
  · simp [hp]

/-- Unfolding of the dialog body in the case where some spinbox is
positive. -/
theorem receiveDialogAccept_applied (s : OrderState) (req : List Int)
    (hg : ((effPairs s req).any fun pr => decide (0 < pr.2)) = true) :
    receiveDialogAccept s req =
      (RecvOutcome.applied,
        { s with
            status := if (((applyItems (effPairs s req)).all fun it =>
                  decide (it.quantity ≤ it.received_quantity)) = true) ∧
                  s.status = Status.pending
                then Status.delivered else s.status,
            items := applyItems (effPairs s req),
            products := guiApplyReceipts s.products (effPairs s req) }) := by
  simp only [receiveDialogAccept]
  rw [if_pos hg]

/-- Unfolding of the dialog body in the case where every spinbox is
zero: the warning path, nothing mutated. -/
theorem receiveDialogAccept_noOp (s : OrderState) (req : List Int)
    (hg : ((effPairs s req).any fun pr => decide (0 < pr.2)) = false) :
    receiveDialogAccept s req = (RecvOutcome.noOp, s) := by
  simp only [receiveDialogAccept]
  rw [if_neg (by simp [hg])]

/-- The desktop item update keeps every row inside
`0 ≤ received_quantity ≤ quantity`, whatever values were requested. -/
theorem applyItems_effPairs_invariant (s : OrderState) (req : List Int)
    (hinv : invItems s.items) :
    invItems (applyItems (effPairs s req)) := by
  intro it' hit'
  unfold applyItems effPairs at hit'
  simp only [List.map_map, List.mem_map, Function.comp] at hit'
  obtain ⟨pr, hpr, heq⟩ := hit'
  obtain ⟨h0, h1⟩ := hinv pr.1 (List.of_mem_zip hpr).1
  have hv0 : 0 ≤ spinVal pr.1 pr.2 := spinVal_nonneg pr.1 pr.2
  have hv1 : spinVal pr.1 pr.2 ≤ pr.1.quantity - pr.1.received_quantity :=
    spinVal_le pr.1 pr.2 h1
  subst heq
  by_cases hp : 0 < spinVal pr.1 pr.2 <;> simp [hp] <;> omega

/-- C1: the desktop receiving operation applies a receipt exactly.  On
a pending order, for any request within the spinbox bounds with at
least one positive value, the dialog commits; every item ends with
`received_quantity` equal to its old value plus its receive-now value
(cumulative, on top of prior receipts), and the stock of every product
grows by exactly the sum of the receive-now values of the items that
point at it — no double counting, no loss.  (The web route instead
overwrites `received_quantity` with the raw form value; see the
counterexample.) -/
theorem gui_receive_adds_exact (s : OrderState) (req : List Int)
    (hst : s.status = Status.pending) (hv : validReq s req)
    (hpos : ∃ pr ∈ s.items.zip req, 0 < pr.2) :
    (guiReceiveOrder s req).1 = RecvOutcome.applied ∧
    (guiReceiveOrder s req).2.items =
      (s.items.zip req).map (fun pr =>
        { pr.1 with received_quantity := pr.1.received_quantity + pr.2 }) ∧
    ∀ pid : Nat,
      stockOf (guiReceiveOrder s req).2.products pid =
        (stockOf s.products pid).map
          (fun v => v + recvSum (s.items.zip req) pid) := by
  have hg := any_pos_of_valid s req hv hpos
  unfold guiReceiveOrder
  rw [if_pos hst, receiveDialogAccept_applied s req hg]
  refine ⟨rfl, ?_, ?_⟩
  · rw [effPairs_of_valid s req hv, applyItems_of_valid s req hv]
  · intro pid
    simp only [effPairs_of_valid s req hv]
    rw [stockOf_guiApply, recvSumPos_eq_of_valid s req hv pid]

/-- Witness for C1 on the concrete state `cexPartial`: receiving 4 of
the remaining 7 commits and raises the stock of product 1 from 5 to
9. -/
theorem gui_receive_adds_exact_check :
    (guiReceiveOrder cexPartial [4]).1 = RecvOutcome.applied ∧
    stockOf (guiReceiveOrder cexPartial [4]).2.products 1 = some (5 + 4) := by
  have h := gui_receive_adds_exact cexPartial [4] rfl
    (by unfold validReq; decide) (by decide)
  exact ⟨h.1, (h.2.2 1).trans (by decide)⟩

/-- C1 counterexample: on `cexPartial` (item already received 3), the
web route with form value 4 ends with `received_quantity` 4, not
3 + 4 = 7 — the prior receipts are overwritten, not accumulated. -/
theorem web_receive_overwrites_cex :
    (webReceiveOrder cexPartial [4]).1 = RecvOutcome.applied ∧
    ((webReceiveOrder cexPartial [4]).2.items.map
      fun it => it.received_quantity) = [4] ∧
    ¬ ((webReceiveOrder cexPartial [4]).2.items.map
      fun it => it.received_quantity) = [3 + 4] := by decide

/-- C2: every desktop operation keeps every item row inside
`0 ≤ received_quantity ≤ quantity`: the receive dialog preserves the
invariant for arbitrary requests (the spinboxes clamp), and the
desktop creation and edit paths save rows with `received_quantity = 0`
and, via the item dialog whose quantity spinbox has minimum 1, ordered
quantities of at least 1 (the hypothesis `hq`).  (The web receive
route can break the invariant — see the counterexample — and the web
creation route validates nothing, though it never commits; see
`webCreationPost`.) -/
theorem desktop_ops_keep_invariant (s : OrderState) (req : List Int)
    (onum : String) (st : Status) (draft : List Item)
    (hinv : invItems s.items) (hq : ∀ d ∈ draft, 1 ≤ d.quantity) :
    invItems (guiReceiveOrder s req).2.items ∧
    (∀ o, guiOrderCreate onum st draft = some o → invItems o.items) ∧
    (∀ s2, guiOrderEdit s st draft = some s2 → invItems s2.items) := by
  have hfresh : ∀ it ∈ draft.map freshItem,
      0 ≤ it.received_quantity ∧ it.received_quantity ≤ it.quantity := by
    intro it hit
    simp only [List.mem_map] at hit
    obtain ⟨d, hd2, rfl⟩ := hit
    have hq1 := hq d hd2
    exact ⟨le_refl 0, by show (0 : Int) ≤ d.quantity; omega⟩
  refine ⟨?_, ?_, ?_⟩
  · unfold guiReceiveOrder
    by_cases hst : s.status = Status.pending
    · rw [if_pos hst]
      by_cases hg : ((effPairs s req).any fun pr => decide (0 < pr.2)) = true
      · rw [receiveDialogAccept_applied s req hg]
        exact applyItems_effPairs_invariant s req hinv
      · rw [receiveDialogAccept_noOp s req (by simpa using hg)]
        exact hinv
    · rw [if_neg hst]
      exact hinv
  · intro o ho
    unfold guiOrderCreate at ho
    by_cases hd : draft.isEmpty
    · rw [if_pos hd] at ho; cases ho
    · rw [if_neg hd] at ho
      simp only [Option.some.injEq] at ho
      subst ho
      exact hfresh
  · intro s2 hs2
    unfold guiOrderEdit at hs2
    by_cases hd : draft.isEmpty
    · rw [if_pos hd] at hs2; cases hs2
    · rw [if_neg hd] at hs2
      simp only [Option.some.injEq] at hs2
      subst hs2
      exact hfresh

/-- Witness for C2: the receive of 4 on `cexPartial` keeps the
invariant. -/
theorem desktop_ops_keep_invariant_check :
    invItems (guiReceiveOrder cexPartial [4]).2.items := by
  have h := desktop_ops_keep_invariant cexPartial [4] "PO-20261012-001"
    Status.pending draftX
    (by unfold invItems; decide) (by decide)
  exact h.1

/-- C2 counterexample: the web route accepts a form value of 100 for an
item with ordered quantity 10 and stores it, breaking
`received_quantity ≤ quantity`. -/
theorem web_receive_breaks_invariant_cex :
    (webReceiveOrder cexPartial [100]).1 = RecvOutcome.applied ∧
    ¬ invItems (webReceiveOrder cexPartial [100]).2.items :=
  ⟨by decide, by unfold invItems; decide⟩

/-- C3: after a committed desktop receipt on a pending order, the
status is `delivered` iff every item now satisfies
`received_quantity ≥ quantity`, and otherwise it stays `pending`.
(The web route marks the order `delivered` unconditionally; see the
counterexample.) -/
theorem gui_receive_delivered_iff_complete (s : OrderState) (req : List Int)
    (hst : s.status = Status.pending)
    (happ : (guiReceiveOrder s req).1 = RecvOutcome.applied) :
    (((guiReceiveOrder s req).2.status = Status.delivered) ↔
      ∀ it ∈ (guiReceiveOrder s req).2.items,
        it.quantity ≤ it.received_quantity) ∧
    ((¬ ∀ it ∈ (guiReceiveOrder s req).2.items,
        it.quantity ≤ it.received_quantity) →
      (guiReceiveOrder s req).2.status = Status.pending) := by
  unfold guiReceiveOrder at *
  rw [if_pos hst] at *
  by_cases hg : ((effPairs s req).any fun pr => decide (0 < pr.2)) = true
  · rw [receiveDialogAccept_applied s req hg] at *
    by_cases hall : ∀ it ∈ applyItems (effPairs s req),
        it.quantity ≤ it.received_quantity
    · have hb : ((applyItems (effPairs s req)).all fun it =>
          decide (it.quantity ≤ it.received_quantity)) = true := by
        rw [List.all_eq_true]
        intro it hit
        simpa using hall it hit
      simp only [hb, hst, and_self, if_true]
      constructor
      · exact ⟨fun _ => hall, fun _ => trivial⟩
      · intro hc; exact absurd hall hc
    · have hb : ¬ (((applyItems (effPairs s req)).all fun it =>
          decide (it.quantity ≤ it.received_quantity)) = true) := by
        rw [List.all_eq_true]
        intro hc
        exact hall fun it hit => by simpa using hc it hit
      rw [if_neg (fun hc => hb hc.1)]
      constructor
      · constructor
        · intro hdel; rw [hst] at hdel; exact absurd hdel (by simp)
        · intro hc; exact absurd hc hall
      · intro _; exact hst
  · rw [receiveDialogAccept_noOp s req (by simpa using hg)] at happ
    exact absurd happ (by simp)

/-- Witness for C3: receiving the full 10 on `cexFresh` flips the
status to `delivered`. -/
theorem gui_receive_delivered_iff_complete_check :
    (guiReceiveOrder cexFresh [10]).2.status = Status.delivered := by
  have h := gui_receive_delivered_iff_complete cexFresh [10] rfl (by decide)
  exact h.1.mpr (by decide)

/-- C3 counterexample: the web route marks `cexFresh` as `delivered`
after receiving only 4 of the 10 ordered units. -/
theorem web_receive_premature_delivered_cex :
    (webReceiveOrder cexFresh [4]).2.status = Status.delivered ∧
    ¬ ∀ it ∈ (webReceiveOrder cexFresh [4]).2.items,
        it.quantity ≤ it.received_quantity := by decide

/-- C4: the desktop receiving operation rejects any order that is not
`pending` — so both `delivered` and `cancelled` — with the Cannot
Receive warning and leaves the whole state unchanged; the web route
gives the same unchanged-state rejection only for `delivered` orders.
(It accepts `cancelled` ones; see the counterexample.) -/
theorem receive_rejects_terminal_status (s : OrderState) (req form : List Int)
    (h : s.status = Status.delivered ∨ s.status = Status.cancelled) :
    guiReceiveOrder s req = (RecvOutcome.invalidState, s) ∧
    (s.status = Status.delivered →
      webReceiveOrder s form = (RecvOutcome.alreadyDelivered, s)) := by
  constructor
  · unfold guiReceiveOrder
    rw [if_neg]
    rcases h with h | h <;> simp [h]
  · intro hd
    unfold webReceiveOrder
    rw [if_pos hd]

/-- Witness for C4: receiving on the cancelled `cexCancelled` is
rejected with no mutation. -/
theorem receive_rejects_terminal_status_check :
    guiReceiveOrder cexCancelled [5] = (RecvOutcome.invalidState, cexCancelled) :=
  (receive_rejects_terminal_status cexCancelled [5] [5] (Or.inr rfl)).1

/-- C4 counterexample: the web route processes a receive on a
`cancelled` order — it commits, flips the status to `delivered` and
adds the 5 units to stock, instead of failing with no mutation. -/
theorem web_receive_accepts_cancelled_cex :
    cexCancelled.status = Status.cancelled ∧
    (webReceiveOrder cexCancelled [5]).1 = RecvOutcome.applied ∧
    (webReceiveOrder cexCancelled [5]).2.status = Status.delivered ∧
    stockOf (webReceiveOrder cexCancelled [5]).2.products 1 = some 10 := by
  decide

/-- C5: an over-receive request never raises an error.  On the desktop,
the Receive Now spinbox clamps the request to at most
`quantity - received_quantity`, so when more than the remainder is
requested the operation still goes through (commit or no-op warning)
and the item ends exactly fully received, never above `quantity`.
(The web route applies the raw value unchecked; see the
counterexample.) -/
theorem gui_receive_truncates_over_request (s : OrderState) (req : List Int)
    (pr : Item × Int)
    (hst : s.status = Status.pending) (hinv : invItems s.items)
    (hmem : pr ∈ s.items.zip req)
    (hover : pr.1.quantity - pr.1.received_quantity < pr.2) :
    ((guiReceiveOrder s req).1 = RecvOutcome.applied ∨
      (guiReceiveOrder s req).1 = RecvOutcome.noOp) ∧
    { pr.1 with received_quantity := pr.1.quantity } ∈
      (guiReceiveOrder s req).2.items := by
  obtain ⟨h0, h1⟩ := hinv pr.1 (List.of_mem_zip hmem).1
  have heff : spinVal pr.1 pr.2 = pr.1.quantity - pr.1.received_quantity := by
    unfold spinVal; omega
  have hm1 : (pr.1, spinVal pr.1 pr.2) ∈ effPairs s req := by
    unfold effPairs
    exact List.mem_map_of_mem _ hmem
  unfold guiReceiveOrder
  rw [if_pos hst]
  by_cases hg : ((effPairs s req).any fun pr => decide (0 < pr.2)) = true
  · rw [receiveDialogAccept_applied s req hg]
    refine ⟨Or.inl rfl, ?_⟩
    have hm2 : (if 0 < spinVal pr.1 pr.2 then
        ({ pr.1 with received_quantity :=
            pr.1.received_quantity + spinVal pr.1 pr.2 } : Item)
        else pr.1) ∈ applyItems (effPairs s req) := by
      unfold applyItems
      exact List.mem_map.mpr ⟨(pr.1, spinVal pr.1 pr.2), hm1, rfl⟩
    by_cases hp : 0 < spinVal pr.1 pr.2
    · rw [if_pos hp] at hm2
      have he : ({ pr.1 with received_quantity :=
          pr.1.received_quantity + spinVal pr.1 pr.2 } : Item) =
          { pr.1 with received_quantity := pr.1.quantity } := by
        simp [Item.mk.injEq, heff]
      rw [he] at hm2
      exact hm2
    · rw [if_neg hp] at hm2
      have hq : pr.1.quantity = pr.1.received_quantity := by omega
      have he : ({ pr.1 with received_quantity := pr.1.quantity } : Item) =
          pr.1 := by
        rw [hq]
      rw [he]
      exact hm2
  · rw [receiveDialogAccept_noOp s req (by simpa using hg)]
    refine ⟨Or.inr rfl, ?_⟩
    have hz : ¬ 0 < spinVal pr.1 pr.2 := by
      intro hc
      exact hg (List.any_eq_true.mpr
        ⟨(pr.1, spinVal pr.1 pr.2), hm1, by simpa using hc⟩)
    have hq : pr.1.quantity = pr.1.received_quantity := by omega
    have he : ({ pr.1 with received_quantity := pr.1.quantity } : Item) =
        pr.1 := by
      rw [hq]
    rw [he]
    exact (List.of_mem_zip hmem).1

/-- Witness for C5: requesting 11 of 10 on `cexFresh` leaves the item
exactly fully received at 10. -/
theorem gui_receive_truncates_over_request_check :
    ({ product_id := 1, quantity := 10, unit_price := 2,
       received_quantity := 10 } : Item) ∈
      (guiReceiveOrder cexFresh [11]).2.items := by
  have h := gui_receive_truncates_over_request cexFresh [11]
    ({ product_id := 1, quantity := 10, unit_price := 2,
       received_quantity := 0 }, 11)
    rfl (by unfold invItems; decide) (by decide) (by decide)
  exact h.2

/-- C5 counterexample: the web route applies a receive of 11 against an
ordered quantity of 10 with no error — `received_quantity` ends at 11
and the stock is raised by 11. -/
theorem web_receive_over_receipt_cex :
    (webReceiveOrder cexFresh [11]).1 = RecvOutcome.applied ∧
    ((webReceiveOrder cexFresh [11]).2.items.map
      fun it => it.received_quantity) = [11] ∧
    stockOf (webReceiveOrder cexFresh [11]).2.products 1 = some 16 ∧
    ¬ (11 : Int) ≤ 10 := by decide

/-- C6: the desktop order number is exactly the one the spec
describes — `PO-<today>-` followed by the zero-padded count of
existing orders with the same day marker plus one — and with no
existing order for the day the sequence starts at `001`.  (The web
route appends the wall-clock time instead; see the counterexample.) -/
theorem gui_order_number_per_day_sequence (existing : List String)
    (today : String) :
    guiOrderNumber existing today = specOrderNumber existing today ∧
    guiOrderNumber [] today = ("PO-" ++ today ++ "-") ++ "001" := by
  constructor
  · unfold guiOrderNumber specOrderNumber
    rw [List.countP_eq_length_filter]
  · unfold guiOrderNumber
    simp only [List.filter_nil, List.length_nil]
    exact congrArg _ (by decide)

/-- C6 counterexample: with no order yet on 2026-10-12, the desktop
generates `PO-20261012-001` but the web route at 14:30:05 generates
`PO-20261012-143005` — a time-of-day suffix, not the per-day sequence
the claim describes. -/
theorem web_order_number_time_cex :
    webOrderNumber "20261012" "143005" = "PO-20261012-143005" ∧
    guiOrderNumber [] "20261012" = "PO-20261012-001" ∧
    ¬ (webOrderNumber "20261012" "143005" = guiOrderNumber [] "20261012") := by
  decide

/-- C7: both creation paths store, as `total_amount`, exactly the sum
of `quantity * unit_price` over the items, and neither receiving
operation ever recomputes or modifies the stored value. -/
theorem total_amount_computed_once (today hhmmss : String) (draft : List Item)
    (s : OrderState) (req form : List Int) (onum : String) (st : Status) :
    (webNewOrder today hhmmss draft).total_amount =
      (draft.map fun it => (it.quantity : Rat) * it.unit_price).sum ∧
    (∀ o, guiOrderCreate onum st draft = some o →
      o.total_amount =
        (draft.map fun it => (it.quantity : Rat) * it.unit_price).sum) ∧
    (guiReceiveOrder s req).2.total_amount = s.total_amount ∧
    (webReceiveOrder s form).2.total_amount = s.total_amount := by
  refine ⟨itemsTotal_eq_sum draft, ?_, ?_, ?_⟩
  · intro o ho
    unfold guiOrderCreate at ho
    by_cases hd : draft.isEmpty
    · rw [if_pos hd] at ho; cases ho
    · rw [if_neg hd] at ho
      simp only [Option.some.injEq] at ho
      subst ho
      exact itemsTotal_eq_sum draft
  · unfold guiReceiveOrder
    by_cases hst : s.status = Status.pending
    · rw [if_pos hst]
      by_cases hg : ((effPairs s req).any fun pr => decide (0 < pr.2)) = true
      · rw [receiveDialogAccept_applied s req hg]
      · rw [receiveDialogAccept_noOp s req (by simpa using hg)]
    · rw [if_neg hst]
  · unfold webReceiveOrder
    by_cases hst : s.status = Status.delivered
    · rw [if_pos hst]
    · rw [if_neg hst]

/-- Witness for C7: the one-item draft (7 units at 4) stores total 28,
and a receive on `cexPartial` leaves the stored total untouched. -/
theorem total_amount_computed_once_check :
    (webNewOrder "20261012" "143005" draftX).total_amount = 28 ∧
    (guiReceiveOrder cexPartial [4]).2.total_amount =
      cexPartial.total_amount := by
  have h := total_amount_computed_once "20261012" "143005" draftX
    cexPartial [4] [4] "PO-20261012-001" Status.pending
  refine ⟨?_, h.2.2.1⟩
  rw [h.1]
  unfold draftX
  norm_num

/-- C8: no purchase-order record is ever created with zero line
items.  The desktop dialog refuses an empty draft before any database
work, and every record it does save carries at least one item row.
The web creation route persists nothing at all: whichever body kind
the POST carries, the handler raises between the form read (line 212)
and the `request.json` read (line 223), before `commit`, and the
flushed row is rolled back. -/
theorem no_zero_item_order_created (onum : String) (st : Status)
    (draft : List Item) (body : WebBody) :
    guiOrderCreate onum st [] = none ∧
    (∀ o, guiOrderCreate onum st draft = some o → o.items ≠ []) ∧
    webCreationPost body = none := by
  refine ⟨rfl, ?_, ?_⟩
  · intro o ho
    unfold guiOrderCreate at ho
    by_cases hd : draft.isEmpty
    · rw [if_pos hd] at ho; cases ho
    · rw [if_neg hd] at ho
      simp only [Option.some.injEq] at ho
      subst ho
      intro hnil
      cases draft with
      | nil => exact hd rfl
      | cons a l => simp at hnil
  · cases body <;> rfl

/-- Witness for C8: the empty desktop draft is rejected, a JSON web
POST persists nothing, and the record saved from `draftX` has a
nonempty item list. -/
theorem no_zero_item_order_created_check :
    guiOrderCreate "PO-20261012-001" Status.pending [] = none ∧
    webCreationPost (WebBody.jsonBody []) = none ∧
    (draftX.map freshItem) ≠ [] := by
  have h := no_zero_item_order_created "PO-20261012-001" Status.pending
    draftX (WebBody.jsonBody [])
  refine ⟨h.1, h.2.2, ?_⟩
  exact h.2.1
    { order_number := "PO-20261012-001", status := Status.pending,
      total_amount := itemsTotal draftX, items := draftX.map freshItem }
    rfl

/-- C9: when every requested receive value is zero (or below, which the
spinboxes clamp to zero), the desktop receiving operation on a pending
order is rejected with the No Items Received warning and the state is
returned untouched.  (The web route applies the all-zero receipt and
marks the order delivered; see the counterexample.) -/
theorem gui_receive_noop_rejected (s : OrderState) (req : List Int)
    (hst : s.status = Status.pending) (hz : ∀ v ∈ req, v ≤ 0) :
    guiReceiveOrder s req = (RecvOutcome.noOp, s) := by
  unfold guiReceiveOrder
  rw [if_pos hst]
  apply receiveDialogAccept_noOp
  rw [List.any_eq_false]
  intro pr hpr
  unfold effPairs at hpr
  simp only [List.mem_map] at hpr
  obtain ⟨q, hq, rfl⟩ := hpr
  have hle : q.2 ≤ 0 := hz q.2 (List.of_mem_zip hq).2
  simp [spinVal_eq_zero q.1 q.2 hle]

/-- Witness for C9: an all-zero receive on `cexPartial` is rejected
with no mutation. -/
theorem gui_receive_noop_rejected_check :
    guiReceiveOrder cexPartial [0] = (RecvOutcome.noOp, cexPartial) :=
  gui_receive_noop_rejected cexPartial [0] rfl (by decide)

/-- C9 counterexample: the web route does not reject the all-zero
receive on `cexPartial`: it commits, sets the status to `delivered`
and zeroes out the previously recorded receipt of 3. -/
theorem web_receive_noop_not_rejected_cex :
    cexPartial.status = Status.pending ∧
    (webReceiveOrder cexPartial [0]).1 = RecvOutcome.applied ∧
    (webReceiveOrder cexPartial [0]).2.status = Status.delivered ∧
    ((webReceiveOrder cexPartial [0]).2.items.map
      fun it => it.received_quantity) = [0] := by decide

/-- C10: whenever the desktop edit dialog saves an existing order, the
item rows are exactly the fresh rows built from the dialog draft —
every one with `received_quantity = 0`, whatever receipt progress the
old rows carried — while the product stocks are left as they are. -/
theorem gui_edit_resets_received_progress (s : OrderState) (st : Status)
    (draft : List Item) (s2 : OrderState)
    (h : guiOrderEdit s st draft = some s2) :
    (∀ it ∈ s2.items, it.received_quantity = 0) ∧
    s2.products = s.products ∧
    s2.items = draft.map freshItem := by
  unfold guiOrderEdit at h
  by_cases hd : draft.isEmpty
  · rw [if_pos hd] at h; cases h
  · rw [if_neg hd] at h
    simp only [Option.some.injEq] at h
    subst h
    refine ⟨?_, rfl, rfl⟩
    intro it hit
    simp only [List.mem_map] at hit
    obtain ⟨d, _, rfl⟩ := hit
    rfl

/-- Witness for C10: editing `cexPartial` with `draftX` (whose stale
row carries received 6) stores a single row with received 0 and keeps
the product stocks. -/
theorem gui_edit_resets_received_progress_check :
    (editedX.items.map fun it => it.received_quantity) = [0] ∧
    editedX.products = cexPartial.products := by
  have h := gui_edit_resets_received_progress cexPartial Status.pending
    draftX editedX rfl
  exact ⟨by rw [h.2.2]; rfl, h.2.1⟩

end Inventory
